import Mathlib

/-!
Verification of the mastra network structured-output serialization repro
harness: the HTTP client script (apps/client/src/index.ts), the direct-call
repro (client.ts), the minimal express server, and the differential-testing
design the repository documents (Scenario / Dual-Path Executor /
Differential Reporter).
-/

set_option autoImplicit false

namespace MastraRepro

/-- A JSON-compatible plain-data value: the transport-neutral encoding that
crosses the HTTP boundary (strings, numbers, booleans, arrays, objects). -/
inductive JValue : Type where
  | jnull : JValue
  | jbool : Bool → JValue
  | jnum : Int → JValue
  | jstr : String → JValue
  | jarr : List JValue → JValue
  | jobj : List (String × JValue) → JValue
deriving Repr

/-- Char-list version of prefix testing used by the substring check. -/
def leadMatch : List Char → List Char → Bool
  | [], _ => true
  | _ :: _, [] => false
  | c :: cs, d :: ds => c == d && leadMatch cs ds

/-- Char-list substring containment: the pattern occurs somewhere in the text. -/
def subMatch : List Char → List Char → Bool
  | pat, [] => pat.isEmpty
  | pat, d :: ds => leadMatch pat (d :: ds) || subMatch pat ds

/-- JavaScript `hay.includes(pat)` substring test, as used by the client
scripts on caught error messages. -/
def strIncludes (hay pat : String) : Bool :=
  subMatch pat.data hay.data

/-- The marker test from apps/client/src/index.ts lines 92-96 (and client.ts
lines 70-74): a caught error message is taken to confirm issue 12284 exactly
when it contains one of the three substrings. -/
def confirmsBug (m : String) : Bool :=
  strIncludes m "additionalProperties" ||
  strIncludes m "required" ||
  strIncludes m "Invalid schema"

/-- What the HTTP client run can observe: the stream completed (with or
without a structured-output chunk), or an error was thrown and caught. -/
inductive RunResult : Type where
  | streamOk : Option JValue → RunResult
  | caughtError : String → RunResult

/-- The report the HTTP client prints at the end of a run. -/
inductive ClientReport : Type where
  | bugNotTriggered : JValue → ClientReport
  | noOutput : ClientReport
  | bugConfirmedReport : ClientReport
  | differentErrorReport : ClientReport
deriving Repr

/-- The `main` of apps/client/src/index.ts as a function from what the run
observed to the printed report and the process exit status: the success
branch falls through to a normal exit (status 0); the catch branch picks the
report by the marker test and always ends in `process.exit(1)`. -/
def clientMain : RunResult → ClientReport × Nat
  | .streamOk (some v) => (.bugNotTriggered v, 0)
  | .streamOk none => (.noOutput, 0)
  | .caughtError m =>
      (if confirmsBug m then .bugConfirmedReport else .differentErrorReport, 1)

/-- The GET /health handler of the minimal express server: it ignores the
request entirely and responds with a fixed JSON body. -/
def healthHandler {Req : Type} (_req : Req) : JValue :=
  .jobj [("status", .jstr "ok"),
         ("agents", .jarr [.jstr "orchestrator", .jstr "subAgent"])]

/-- Modelled from the spec: error-classification tags carried by a failed
ExecutionOutcome (section 3); the repository scripts only substring-match a
message and never build this tag, so it is taken from the spec text. -/
inductive Classification : Type where
  | schemaValidation : Classification
  | transport : Classification
  | unknown : Classification
deriving DecidableEq, Repr

/-- Which of the two execution paths produced an outcome. -/
inductive PathTag : Type where
  | inProcess : PathTag
  | remote : PathTag
deriving DecidableEq, Repr

/-- An observed event record: a kind tag and an optional payload. -/
structure EventRecord : Type where
  kind : String
  payload : Option JValue

/-- Terminal status of one path: success with a value, or failure with the
raw message text and a classification tag. -/
inductive TerminalStatus : Type where
  | success : JValue → TerminalStatus
  | failure : String → Classification → TerminalStatus

/-- Modelled from the spec: the result of running one Scenario through one
path (section 3 ExecutionOutcome) — path tag, ordered events, and exactly
one terminal status. -/
structure ExecutionOutcome : Type where
  path : PathTag
  events : List EventRecord
  terminal : TerminalStatus

/-- The verdict tags of the Reporter (section 3 DifferentialResult). -/
inductive Verdict : Type where
  | bugConfirmed : Verdict
  | bugAbsent : Verdict
  | unrelatedFailure : Verdict
  | anomalous : Verdict
deriving DecidableEq, Repr

/-- Modelled from the spec: the Differential Reporter verdict table of
section 4.3, with `anomalous` as the catch-all for unexpected combinations
(section 7); no Reporter exists in the repository scripts. -/
def verdict (ip rm : ExecutionOutcome) : Verdict :=
  match ip.terminal, rm.terminal with
  | .success _, .success _ => .bugAbsent
  | .success _, .failure _ c =>
      match c with
      | .schemaValidation => .bugConfirmed
      | _ => .anomalous
  | .failure _ c1, .failure _ c2 =>
      if c1 = c2 then .unrelatedFailure else .anomalous
  | .failure _ _, .success _ => .anomalous

/-- Modelled from the spec: the executor classifies a non-network error by
inspecting its text for the schema-validation markers (section 4.2); the
marker test itself is the confirmsBug check of the repository scripts. -/
def classifyError (m : String) : Classification :=
  if confirmsBug m then .schemaValidation else .unknown

/-- Modelled from the spec: classification of a remote-path error —
network-level failures (unreachable endpoint, connection refused, timeout)
are `transport`, distinct from schema-validation (sections 4.2 and 5). -/
def remoteErrorClassification (unreachable : Bool) (m : String) : Classification :=
  if unreachable then .transport else classifyError m

/-- The failure ExecutionOutcome of the remote path for a caught error. -/
def remoteOutcomeOfError (unreachable : Bool) (m : String)
    (events : List EventRecord) : ExecutionOutcome :=
  ⟨.remote, events, .failure m (remoteErrorClassification unreachable m)⟩

/-- Conversation role tags supported by a Scenario turn. -/
inductive Role : Type where
  | user : Role
  | assistant : Role
deriving DecidableEq, Repr

/-- One conversation turn: a role tag and free-text content. -/
structure Turn : Type where
  role : Role
  content : String
deriving DecidableEq, Repr

/-- Primitive types the expected-shape descriptor may reference. -/
inductive PrimType : Type where
  | string : PrimType
  | number : PrimType
  | boolean : PrimType
deriving DecidableEq, Repr

/-- The expected-output shape descriptor: required field names with their
primitive types (the client scripts build it from z.object fields such as
capital: string, calculation: number). -/
structure ShapeDescriptor : Type where
  fields : List (String × PrimType)
deriving DecidableEq, Repr

/-- Modelled from the spec: a Scenario (section 3) — ordered turns, an
optional expected-shape descriptor, and the participating agent names; the
repository scripts inline these as literal arguments to `.network()`. -/
structure Scenario : Type where
  turns : List Turn
  shape : Option ShapeDescriptor
  agents : List String
deriving DecidableEq, Repr

/-- Sequential fallible map, as the decoder applies itself along an array. -/
def optionMapM {α β : Type} (f : α → Option β) : List α → Option (List β)
  | [] => some []
  | a :: rest =>
      match f a, optionMapM f rest with
      | some b, some bs => some (b :: bs)
      | _, _ => none

/-- Encode a role tag as its JSON string. -/
def encodeRole : Role → JValue
  | .user => .jstr "user"
  | .assistant => .jstr "assistant"

/-- Decode a role tag from its JSON string. -/
def decodeRole : JValue → Option Role
  | .jstr "user" => some .user
  | .jstr "assistant" => some .assistant
  | _ => none

/-- Encode one turn as the message object the client sends. -/
def encodeTurn (t : Turn) : JValue :=
  .jobj [("role", encodeRole t.role), ("content", .jstr t.content)]

/-- Decode one turn from its message object. -/
def decodeTurn : JValue → Option Turn
  | .jobj [("role", r), ("content", .jstr c)] =>
      (decodeRole r).map (fun ro => ⟨ro, c⟩)
  | _ => none

/-- Encode a primitive type name as its JSON-schema type string. -/
def encodePrim : PrimType → JValue
  | .string => .jstr "string"
  | .number => .jstr "number"
  | .boolean => .jstr "boolean"

/-- Decode a primitive type name. -/
def decodePrim : JValue → Option PrimType
  | .jstr "string" => some .string
  | .jstr "number" => some .number
  | .jstr "boolean" => some .boolean
  | _ => none

/-- Encode one shape field as a name/type object. -/
def encodeField (f : String × PrimType) : JValue :=
  .jobj [("name", .jstr f.1), ("type", encodePrim f.2)]

/-- Decode one shape field. -/
def decodeField : JValue → Option (String × PrimType)
  | .jobj [("name", .jstr n), ("type", t)] =>
      (decodePrim t).map (fun p => (n, p))
  | _ => none

/-- Encode the expected-shape descriptor as a plain array of fields. -/
def encodeShape (sh : ShapeDescriptor) : JValue :=
  .jarr (sh.fields.map encodeField)

/-- Decode the expected-shape descriptor. -/
def decodeShape : JValue → Option ShapeDescriptor
  | .jarr xs => (optionMapM decodeField xs).map ShapeDescriptor.mk
  | _ => none

/-- Encode the optional descriptor, `null` when absent. -/
def encodeShapeOpt : Option ShapeDescriptor → JValue
  | none => .jnull
  | some sh => encodeShape sh

/-- Decode the optional descriptor. -/
def decodeShapeOpt : JValue → Option (Option ShapeDescriptor)
  | .jnull => some none
  | v => (decodeShape v).map some

/-- Decode a JSON string. -/
def decodeString : JValue → Option String
  | .jstr s => some s
  | _ => none

/-- Modelled from the spec: serialize a Scenario to the transport-neutral
JSON-compatible form (section 4.2 remote path); the expected-shape
descriptor is passed through this plain-data encoding — this is the
serialization done inside MastraClient, outside the repository. -/
def encodeScenario (s : Scenario) : JValue :=
  .jobj [("messages", .jarr (s.turns.map encodeTurn)),
         ("structuredOutput", encodeShapeOpt s.shape),
         ("agents", .jarr (s.agents.map JValue.jstr))]

/-- Modelled from the spec: the server-side decoding of the transmitted
Scenario back from the plain-data form. -/
def decodeScenario : JValue → Option Scenario
  | .jobj [("messages", .jarr ms), ("structuredOutput", so), ("agents", .jarr ags)] =>
      match optionMapM decodeTurn ms, decodeShapeOpt so,
            optionMapM decodeString ags with
      | some ts, some sh, some ag => some ⟨ts, sh, ag⟩
      | _, _, _ => none
  | _ => none

/-- A raw turn as written in the scripts: a role string and content. -/
structure RawTurn : Type where
  role : String
  content : String
deriving DecidableEq, Repr

/-- Parse a role string into a supported role tag. -/
def parseRole : String → Option Role
  | "user" => some .user
  | "assistant" => some .assistant
  | _ => none

/-- Parse a raw turn. -/
def parseTurn (t : RawTurn) : Option Turn :=
  (parseRole t.role).map (fun r => ⟨r, t.content⟩)

/-- Parse a primitive type string into a supported primitive type. -/
def parsePrim : String → Option PrimType
  | "string" => some .string
  | "number" => some .number
  | "boolean" => some .boolean
  | _ => none

/-- Parse a raw shape field. -/
def parseField (f : String × String) : Option (String × PrimType) :=
  (parsePrim f.2).map (fun p => (f.1, p))

/-- The one Scenario-construction error of the spec. -/
inductive ScenarioError : Type where
  | InvalidScenario : ScenarioError
deriving DecidableEq, Repr

/-- Modelled from the spec: the Scenario constructor (section 4.1) — fails
with InvalidScenario when the turn sequence is empty, the role tag of a turn is
unrecognized, or a shape field names an unsupported primitive type;
otherwise it yields the immutable Scenario value. The repository scripts
have no such constructor, only literal well-formed inputs. -/
def mkScenario (turns : List RawTurn) (shape : Option (List (String × String)))
    (agents : List String) : Except ScenarioError Scenario :=
  if turns.isEmpty then .error .InvalidScenario
  else
    match optionMapM parseTurn turns with
    | none => .error .InvalidScenario
    | some ts =>
        match shape with
        | none => .ok ⟨ts, none, agents⟩
        | some fs =>
            match optionMapM parseField fs with
            | none => .error .InvalidScenario
            | some pfs => .ok ⟨ts, some ⟨pfs⟩, agents⟩

/-- What one step of awaiting the event stream of a path can observe: a
non-terminal event record, the terminal event, or no progress (a stalled
stream). -/
inductive StreamStep : Type where
  | emit : EventRecord → StreamStep
  | terminalEvent : TerminalStatus → StreamStep
  | stall : StreamStep

/-- Modelled from the spec: the failure synthesized when the per-path
timeout fires — classified `transport` on the remote path and `unknown` on
the in-process path (section 5 Cancellation); the repository scripts await
their streams with no timeout. -/
def timeoutStatus : PathTag → TerminalStatus
  | .remote => .failure "timeout" .transport
  | .inProcess => .failure "timeout" .unknown

/-- Modelled from the spec: consume the event stream of a path under a per-path
timeout measured in steps. Each awaited step spends one unit of the bound;
when the bound is exhausted the synthesized timeout failure is returned and
no further events are consumed. Returns the terminal status, the number of
steps spent, and the events collected. -/
def consumeWithTimeout (p : PathTag) (s : Nat → StreamStep) :
    Nat → Nat → TerminalStatus × Nat × List EventRecord
  | 0, _ => (timeoutStatus p, 0, [])
  | fuel + 1, i =>
      match s i with
      | .terminalEvent t => (t, 1, [])
      | .emit e =>
          let r := consumeWithTimeout p s fuel (i + 1)
          (r.1, r.2.1 + 1, e :: r.2.2)
      | .stall =>
          let r := consumeWithTimeout p s fuel (i + 1)
          (r.1, r.2.1 + 1, r.2.2)

/-- Run one path against its stream under the configured timeout, packaging
the result as an ExecutionOutcome. -/
def runPathWithTimeout (p : PathTag) (s : Nat → StreamStep) (timeout : Nat) :
    ExecutionOutcome :=
  let r := consumeWithTimeout p s timeout 0
  ⟨p, r.2.2, r.1⟩

/-- The first argument of the patched global fetch: a string URL or any
non-string request object. -/
inductive FetchInput : Type where
  | url : String → FetchInput
  | requestObject : FetchInput

/-- The request init options; only the body is inspected. -/
structure FetchInit : Type where
  body : Option String

/-- Object field lookup on a parsed JSON body. -/
def jGet : JValue → String → Option JValue
  | .jobj fs, k => (fs.find? (fun f => f.1 == k)).map Prod.snd
  | _, _ => none

/-- The log lines the interceptor prints for a parsed request body: it only
logs requests whose body carries a response_format field. -/
def interceptorBodyLogs (j : JValue) (requestCount : Nat) (u : String) : List String :=
  match jGet j "response_format" with
  | some _ =>
      ["=== OpenAI Request #" ++ toString requestCount ++ " ===", "URL: " ++ u]
  | none => []

/-- The patched `globalThis.fetch` of client.ts lines 225-249, with the
original fetch, the JSON parser, and the mutable request counter made
explicit. Every branch ends by applying the original fetch to the
unmodified input and init; a parse failure is caught and logged. Returns
the result of the original fetch, the updated counter, and the log lines. -/
def interceptedFetch {R : Type} (originalFetch : FetchInput → Option FetchInit → R)
    (parseJson : String → Except String JValue) (requestCount : Nat)
    (input : FetchInput) (init : Option FetchInit) : R × Nat × List String :=
  match input, init with
  | .url u, some i =>
      if strIncludes u "openai.com" && i.body.isSome then
        match i.body with
        | some b =>
            let rc := requestCount + 1
            (match parseJson b with
             | .ok j => (originalFetch input init, rc, interceptorBodyLogs j rc u)
             | .error e =>
                 (originalFetch input init, rc, ["Failed to parse fetch body: " ++ e]))
        | none => (originalFetch input init, requestCount, [])
      else (originalFetch input init, requestCount, [])
  | _, _ => (originalFetch input init, requestCount, [])

theorem decodeRole_encodeRole (r : Role) : decodeRole (encodeRole r) = some r := by
  cases r <;> rfl

theorem decodeTurn_encodeTurn (t : Turn) : decodeTurn (encodeTurn t) = some t := by
  cases t with
  | mk r c => cases r <;> rfl

theorem decodePrim_encodePrim (p : PrimType) : decodePrim (encodePrim p) = some p := by
  cases p <;> rfl

theorem decodeField_encodeField (f : String × PrimType) :
    decodeField (encodeField f) = some f := by
  cases f with
  | mk n p => cases p <;> rfl

theorem optionMapM_map_roundtrip {α β : Type} (f : α → β) (g : β → Option α)
    (h : ∀ a, g (f a) = some a) (l : List α) :
    optionMapM g (l.map f) = some l := by
  induction l with
  | nil => rfl
  | cons a rest ih => simp [optionMapM, h, ih]

theorem decodeShape_encodeShape (sh : ShapeDescriptor) :
    decodeShape (encodeShape sh) = some sh := by
  cases sh with
  | mk fs =>
      simp [encodeShape, decodeShape,
        optionMapM_map_roundtrip encodeField decodeField decodeField_encodeField]

theorem decodeShapeOpt_encodeShapeOpt (sh : Option ShapeDescriptor) :
    decodeShapeOpt (encodeShapeOpt sh) = some sh := by
  cases sh with
  | none => rfl
  | some s =>
      simp [encodeShapeOpt, decodeShapeOpt, encodeShape, decodeShape,
        optionMapM_map_roundtrip encodeField decodeField decodeField_encodeField]

/-- Claim C3: encoding any Scenario to the transport-neutral JSON-compatible
form and decoding it back yields the same turn sequence, the same
expected-shape descriptor values (which travel through the same plain-data
encoding), and the same agent list. -/
theorem C3_scenario_roundtrip (s : Scenario) :
    decodeScenario (encodeScenario s) = some s := by
  cases s with
  | mk ts sh ag =>
      simp [encodeScenario, decodeScenario,
        optionMapM_map_roundtrip encodeTurn decodeTurn decodeTurn_encodeTurn,
        decodeShapeOpt_encodeShapeOpt,
        optionMapM_map_roundtrip JValue.jstr decodeString (fun _ => rfl)]

theorem confirmsBug_of_marker {m : String}
    (h : strIncludes m "required" = true ∨ strIncludes m "additionalProperties" = true) :
    confirmsBug m = true := by
  unfold confirmsBug
  rcases h with h | h <;> simp [h]

/-- Claim C1: when the in-process path succeeds and the remote path fails
with an error whose message contains a required-properties or
additional-properties marker, the verdict of the Reporter is bug-confirmed. -/
theorem C1_marker_failure_bug_confirmed (m : String) (v : JValue)
    (e1 e2 : List EventRecord)
    (h : strIncludes m "required" = true ∨ strIncludes m "additionalProperties" = true) :
    verdict ⟨.inProcess, e1, .success v⟩ (remoteOutcomeOfError false m e2) =
      .bugConfirmed := by
  have hc : confirmsBug m = true := confirmsBug_of_marker h
  simp [verdict, remoteOutcomeOfError, remoteErrorClassification, classifyError, hc]

/-- Witness for C1 at a concrete error message containing "required". -/
theorem C1_marker_failure_bug_confirmed_witness :
    strIncludes "additionalProperties must be false" "additionalProperties" = true ∧
    verdict ⟨.inProcess, [], .success .jnull⟩
      (remoteOutcomeOfError false "additionalProperties must be false" []) =
      .bugConfirmed :=
  ⟨by decide,
   C1_marker_failure_bug_confirmed "additionalProperties must be false" .jnull [] []
     (Or.inr (by decide))⟩

/-- Claim C2: when the remote endpoint is unreachable, the remote outcome is
classified transport (never schema-validation); with a successful in-process
path the verdict is anomalous, and whatever the in-process outcome is, the
verdict is anomalous or unrelated-failure — never bug-confirmed. -/
theorem C2_unreachable_transport_anomalous (m : String) (v : JValue)
    (e1 e2 : List EventRecord) :
    (remoteOutcomeOfError true m e2).terminal = .failure m .transport ∧
    verdict ⟨.inProcess, e1, .success v⟩ (remoteOutcomeOfError true m e2) =
      .anomalous ∧
    ∀ ip : ExecutionOutcome,
      verdict ip (remoteOutcomeOfError true m e2) = .anomalous ∨
      verdict ip (remoteOutcomeOfError true m e2) = .unrelatedFailure := by
  refine ⟨rfl, rfl, ?_⟩
  intro ip
  cases ip with
  | mk p evs t =>
      cases t with
      | success v2 => exact Or.inl rfl
      | failure m2 c2 =>
          by_cases hc : c2 = Classification.transport
          · subst hc
            exact Or.inr (by
              simp [verdict, remoteOutcomeOfError, remoteErrorClassification])
          · exact Or.inl (by
              simp [verdict, remoteOutcomeOfError, remoteErrorClassification, hc])

/-- Claim C4: when both paths succeed the Reporter yields bug-absent, and
the Reporter is deterministic — identical outcome pairs give identical
verdicts (it is a pure function by construction). -/
theorem C4_reporter_bug_absent_deterministic (v1 v2 : JValue)
    (e1 e2 : List EventRecord) (a b a2 b2 : ExecutionOutcome)
    (h1 : a = a2) (h2 : b = b2) :
    verdict ⟨.inProcess, e1, .success v1⟩ ⟨.remote, e2, .success v2⟩ = .bugAbsent ∧
    verdict a b = verdict a2 b2 :=
  ⟨rfl, by rw [h1, h2]⟩

/-- Witness for C4 at concrete success outcomes. -/
theorem C4_reporter_bug_absent_deterministic_witness :
    verdict ⟨.inProcess, [], .success .jnull⟩ ⟨.remote, [], .success .jnull⟩ =
      .bugAbsent ∧
    verdict ⟨.inProcess, [], .success .jnull⟩ ⟨.remote, [], .success .jnull⟩ =
      verdict ⟨.inProcess, [], .success .jnull⟩ ⟨.remote, [], .success .jnull⟩ :=
  C4_reporter_bug_absent_deterministic .jnull .jnull [] []
    ⟨.inProcess, [], .success .jnull⟩ ⟨.remote, [], .success .jnull⟩
    ⟨.inProcess, [], .success .jnull⟩ ⟨.remote, [], .success .jnull⟩ rfl rfl

/-- Claim C5 counterexample: a run of the HTTP client that completes and
reaches the bug-confirmed verdict exits with status 1, not 0 — the catch
block of apps/client/src/index.ts always ends in process.exit(1). -/
theorem C5_bug_confirmed_exits_nonzero :
    clientMain
        (.caughtError "additionalProperties is required to be supplied and to be false") =
      (.bugConfirmedReport, 1) ∧
    ¬ (clientMain
        (.caughtError "additionalProperties is required to be supplied and to be false")).2 = 0 := by
  exact ⟨rfl, by decide⟩

/-- Claim C5 as amended: the runner exits with status 0 exactly when the
stream was consumed without a caught error (verdict bug-absent or
no-output); every caught error — including one that confirms the bug — ends
in exit status 1. -/
theorem C5_exit_zero_iff_no_caught_error (r : RunResult) :
    (clientMain r).2 = 0 ↔ ∃ v, r = .streamOk v := by
  cases r with
  | streamOk v => cases v <;> simp [clientMain]
  | caughtError m => simp [clientMain]

theorem optionMapM_eq_none_iff {α β : Type} (f : α → Option β) (l : List α) :
    optionMapM f l = none ↔ ∃ a ∈ l, f a = none := by
  induction l with
  | nil => simp [optionMapM]
  | cons a rest ih =>
      cases hfa : f a with
      | none =>
          simp only [optionMapM, hfa]
          exact ⟨fun _ => ⟨a, List.mem_cons_self a rest, hfa⟩, fun _ => trivial⟩
      | some b =>
          cases hrest : optionMapM f rest with
          | none =>
              simp only [optionMapM, hfa, hrest]
              refine ⟨fun _ => ?_, fun _ => trivial⟩
              obtain ⟨x, hx, hfx⟩ := ih.mp hrest
              exact ⟨x, List.mem_cons_of_mem a hx, hfx⟩
          | some bs =>
              simp only [optionMapM, hfa, hrest]
              constructor
              · intro h; cases h
              · intro h
                obtain ⟨x, hx, hfx⟩ := h
                rcases List.mem_cons.mp hx with rfl | hx2
                · rw [hfa] at hfx; cases hfx
                · have hnone := ih.mpr ⟨x, hx2, hfx⟩
                  rw [hrest] at hnone; cases hnone

theorem parseTurn_eq_none_iff (t : RawTurn) :
    parseTurn t = none ↔ parseRole t.role = none := by
  unfold parseTurn
  cases parseRole t.role <;> simp

theorem parseField_eq_none_iff (f : String × String) :
    parseField f = none ↔ parsePrim f.2 = none := by
  unfold parseField
  cases parsePrim f.2 <;> simp

/-- Claim C6: Scenario construction fails with InvalidScenario exactly when
the turn sequence is empty, the role tag of some turn is unrecognized, or some
expected-shape field names an unsupported primitive type; otherwise it
returns the Scenario value. -/
theorem C6_mkScenario_invalid_iff (turns : List RawTurn)
    (shape : Option (List (String × String))) (agents : List String) :
    mkScenario turns shape agents = .error .InvalidScenario ↔
      (turns = [] ∨ (∃ t ∈ turns, parseRole t.role = none) ∨
       (∃ fs, shape = some fs ∧ ∃ f ∈ fs, parsePrim f.2 = none)) := by
  constructor
  · intro h
    by_cases hemp : turns.isEmpty
    · exact Or.inl (List.isEmpty_iff.mp hemp)
    · right
      simp only [mkScenario, if_neg hemp] at h
      cases hmt : optionMapM parseTurn turns with
      | none =>
          left
          obtain ⟨t, ht, hft⟩ := (optionMapM_eq_none_iff parseTurn turns).mp hmt
          exact ⟨t, ht, (parseTurn_eq_none_iff t).mp hft⟩
      | some ts =>
          simp only [hmt] at h
          cases shape with
          | none => simp at h
          | some fs =>
              right
              cases hmf : optionMapM parseField fs with
              | none =>
                  obtain ⟨f, hf, hff⟩ := (optionMapM_eq_none_iff parseField fs).mp hmf
                  exact ⟨fs, rfl, f, hf, (parseField_eq_none_iff f).mp hff⟩
              | some pfs => simp only [hmf] at h; simp at h
  · intro h
    rcases h with rfl | ⟨t, ht, hrole⟩ | ⟨fs, rfl, f, hf, hprim⟩
    · rfl
    · have hmt : optionMapM parseTurn turns = none :=
        (optionMapM_eq_none_iff parseTurn turns).mpr
          ⟨t, ht, (parseTurn_eq_none_iff t).mpr hrole⟩
      by_cases hemp : turns.isEmpty
      · simp [mkScenario, hemp]
      · simp [mkScenario, hemp, hmt]
    · have hmf : optionMapM parseField fs = none :=
        (optionMapM_eq_none_iff parseField fs).mpr
          ⟨f, hf, (parseField_eq_none_iff f).mpr hprim⟩
      by_cases hemp : turns.isEmpty
      · simp [mkScenario, hemp]
      · cases hmt : optionMapM parseTurn turns with
        | none => simp [mkScenario, hemp, hmt]
        | some ts => simp [mkScenario, hemp, hmt, hmf]

theorem consumeWithTimeout_steps_le (p : PathTag) (s : Nat → StreamStep) :
    ∀ fuel i, (consumeWithTimeout p s fuel i).2.1 ≤ fuel := by
  intro fuel
  induction fuel with
  | zero => intro i; simp [consumeWithTimeout]
  | succ n ih =>
      intro i
      cases hs : s i with
      | terminalEvent t => simp [consumeWithTimeout, hs]
      | emit e =>
          simp only [consumeWithTimeout, hs]
          have := ih (i + 1)
          omega
      | stall =>
          simp only [consumeWithTimeout, hs]
          have := ih (i + 1)
          omega

theorem consumeWithTimeout_stall_result (p : PathTag) :
    ∀ fuel i, consumeWithTimeout p (fun _ => .stall) fuel i =
      (timeoutStatus p, fuel, []) := by
  intro fuel
  induction fuel with
  | zero => intro i; rfl
  | succ n ih =>
      intro i
      simp only [consumeWithTimeout]
      rw [ih (i + 1)]

/-- Claim C7: consuming the event stream of a path under a configured timeout
spends at most the configured number of steps, and on a fully stalled
stream it synthesizes the timeout failure — classified transport for the
remote path and unknown for the in-process path — having consumed no
events. -/
theorem C7_timeout_yields_terminal_within_bound (p : PathTag)
    (s : Nat → StreamStep) (timeout : Nat) :
    (consumeWithTimeout p s timeout 0).2.1 ≤ timeout ∧
    (runPathWithTimeout p (fun _ => .stall) timeout).terminal = timeoutStatus p ∧
    (runPathWithTimeout p (fun _ => .stall) timeout).events = [] ∧
    timeoutStatus .remote = .failure "timeout" .transport ∧
    timeoutStatus .inProcess = .failure "timeout" .unknown := by
  refine ⟨consumeWithTimeout_steps_le p s timeout 0, ?_, ?_, rfl, rfl⟩
  · simp [runPathWithTimeout, consumeWithTimeout_stall_result p timeout 0]
  · simp [runPathWithTimeout, consumeWithTimeout_stall_result p timeout 0]

/-- Claim C8: the HTTP client reports a caught error as confirming the
schema-serialization bug exactly when its message contains one of the
substrings "additionalProperties", "required" or "Invalid schema"; in
particular an unrelated error message that merely contains the word
"required" is reported as confirming the bug. -/
theorem C8_substring_bug_classification (m : String) :
    ((clientMain (.caughtError m)).1 = .bugConfirmedReport ↔
      (strIncludes m "additionalProperties" = true ∨
       strIncludes m "required" = true ∨
       strIncludes m "Invalid schema" = true)) ∧
    (clientMain (.caughtError "Authentication required")).1 = .bugConfirmedReport := by
  constructor
  · constructor
    · intro h
      by_cases hcb : confirmsBug m = true
      · simp only [confirmsBug, Bool.or_eq_true] at hcb
        tauto
      · simp [clientMain, hcb] at h
    · intro h
      have hcb : confirmsBug m = true := by
        simp only [confirmsBug, Bool.or_eq_true]
        tauto
      simp [clientMain, hcb]
  · rfl

/-- Claim C9: the patched global fetch is observation-only — on every input
and init, including when JSON-parsing the request body fails, it returns
exactly the original fetch applied to the unmodified arguments. -/
theorem C9_interceptor_preserves_fetch {R : Type}
    (originalFetch : FetchInput → Option FetchInit → R)
    (parseJson : String → Except String JValue) (requestCount : Nat)
    (input : FetchInput) (init : Option FetchInit) :
    (interceptedFetch originalFetch parseJson requestCount input init).1 =
      originalFetch input init := by
  cases input with
  | url u =>
      cases init with
      | none => rfl
      | some i =>
          by_cases hif : (strIncludes u "openai.com" && i.body.isSome) = true
          · cases hb : i.body with
            | none => simp [interceptedFetch, hif, hb]
            | some b =>
                cases hp : parseJson b <;>
                  simp [interceptedFetch, hif, hb, hp] <;> split <;> rfl
          · simp [interceptedFetch, hif]
  | requestObject => rfl

/-- Claim C10: the GET /health handler of the minimal server returns the
constant JSON body with status ok and the agent list, independent of the
request (and of any other state). -/
theorem C10_health_constant_body {Req1 Req2 : Type} (r1 : Req1) (r2 : Req2) :
    healthHandler r1 =
      .jobj [("status", .jstr "ok"),
             ("agents", .jarr [.jstr "orchestrator", .jstr "subAgent"])] ∧
    healthHandler r1 = healthHandler r2 :=
  ⟨rfl, rfl⟩

end MastraRepro
